import Mathlib

/-!
Verification development for the Dragon-Lang compiler pipeline
(lexer, parser, semantic analyzer, IR generator, optimizer, virtual
machine).  Each component is shallowly embedded from its Python source:

* `src/analisis_lexico/lexer.py`         — numeric token patterns
* `src/analisis_sintactico/parser.py`    — the `primary` literal classifier
* `src/analisis_semantico/symbol_table.py` and `semantic.py`
* `src/representacion_intermedia/ir.py`, `ir_generator.py`, `optimizer.py`
* `src/codigo_final/vm.py`

Python `dict`s are embedded as association lists with in-place update,
Python exceptions as `Option`/`Except` results, and Python `float`s as
exact fractions (`Frac` below); on every concrete value appearing in this
development the source's double-precision arithmetic is exact, so the
model coincides with it there.
-/

namespace Dragon

/-! ### Character and string helpers (ASCII fragments of the Python str API) -/

/-- Decimal digit test, modelling Python `str.isdigit` on the ASCII strings
that occur as IR operands and lexemes. -/
def isDig (c : Char) : Bool := '0' ≤ c && c ≤ '9'

/-- All characters are decimal digits (`"".isdigit()` is `False` in Python,
so emptiness is checked separately by callers that need it). -/
def allDig : List Char → Bool
| [] => true
| c :: cs => isDig c && allDig cs

/-- Python `str.lstrip("-")`: drop every leading minus sign. -/
def stripMinus : List Char → List Char
| '-' :: cs => stripMinus cs
| cs => cs

/-- Numeric value of a digit string (callers guarantee digits only). -/
def digitsVal : Nat → List Char → Nat
| acc, [] => acc
| acc, c :: cs => digitsVal (acc * 10 + (c.toNat - 48)) cs

/-- Python `s.startswith(c)` for a single character `c`. -/
def headIs (s : String) (c : Char) : Bool :=
  match s.data with
  | [] => false
  | a :: _ => a == c

/-- Last-character test on a character list. -/
def lastCharIs : List Char → Char → Bool
| [], _ => false
| [a], c => a == c
| _ :: rest, c => lastCharIs rest c

/-- Python `s.endswith(c)` for a single character `c`. -/
def lastIs (s : String) (c : Char) : Bool := lastCharIs s.data c

/-- Membership of a character in a string (Python `c in s`). -/
def hasChar (cs : List Char) (c : Char) : Bool :=
  match cs with
  | [] => false
  | a :: rest => a == c || hasChar rest c

/-- Python `"." in s or "e" in s.lower()`: the guard the VM and the lexer
use to keep a parsed number as a float. -/
def hasDotOrE (cs : List Char) : Bool :=
  hasChar cs '.' || hasChar cs 'e' || hasChar cs 'E'

/-- Python `s[1:-1]`: strip the first and last character. -/
def innerStr (s : String) : String :=
  String.mk ((s.data.drop 1).dropLast)

/-- Python `s[:-1]`: drop the final character. -/
def dropLastStr (s : String) : String := String.mk s.data.dropLast

/-- Python `s[1:]`: drop the first character. -/
def dropHeadStr (s : String) : String := String.mk (s.data.drop 1)

/-! ### Exact fractions standing for Python floats

Denominators are kept positive and never reduced (no gcd), so every
operation evaluates inside the kernel. -/

/-- An exact fraction `num / den` modelling a Python `float` value. -/
structure Frac where
  num : Int
  den : Nat
deriving DecidableEq, Repr

/-- Fraction with integer value `n` (Python `float(n)`). -/
def intFrac (n : Int) : Frac := ⟨n, 1⟩

def fadd (a b : Frac) : Frac := ⟨a.num * b.den + b.num * a.den, a.den * b.den⟩

def fsub (a b : Frac) : Frac := ⟨a.num * b.den - b.num * a.den, a.den * b.den⟩

def fmul (a b : Frac) : Frac := ⟨a.num * b.num, a.den * b.den⟩

/-- True division `a / b` (callers rule out `b = 0` first, as the VM does). -/
def fdiv (a b : Frac) : Frac :=
  ⟨(if b.num < 0 then -(a.num * b.den) else a.num * b.den), a.den * b.num.natAbs⟩

def fneg (a : Frac) : Frac := ⟨-a.num, a.den⟩

def fIsZero (a : Frac) : Bool := a.num == 0

def fEq (a b : Frac) : Bool := a.num * b.den == b.num * a.den

def fLt (a b : Frac) : Bool := a.num * (b.den : Int) < b.num * (a.den : Int)

def fLe (a b : Frac) : Bool := a.num * (b.den : Int) ≤ b.num * (a.den : Int)

/-- Python `float.is_integer`. -/
def fIsInt (a : Frac) : Bool := a.num.emod a.den == 0

/-- Python `int(f)` on a float known to be integral. -/
def fToInt (a : Frac) : Int := a.num / (a.den : Int)

/-- Decimal digits of the fractional part `rem / den` (used by `renderFrac`);
the fuel bounds the expansion and is never exhausted on the finite decimals
this development evaluates. -/
def fracDigits : Nat → Nat → Nat → List Char
| 0, _, _ => []
| fuel + 1, rem, den =>
  if rem == 0 then []
  else Char.ofNat (48 + rem * 10 / den) :: fracDigits fuel (rem * 10 % den) den

/-- Python `repr`/`str` of a float, modelled for floats whose shortest
representation is a plain finite decimal (true of every float rendered in
this development): an integral float prints with a trailing `.0`. -/
def renderFrac (f : Frac) : String :=
  let a := f.num.natAbs
  let ip := a / f.den
  let rem := a % f.den
  let base := toString ip ++ "." ++
    (if rem == 0 then "0" else String.mk (fracDigits 40 rem f.den))
  if f.num < 0 then "-" ++ base else base

/-! ### Runtime values (vm.py value domain: int, float, string) -/

/-- A runtime value of the virtual machine. -/
inductive Value where
| intV (n : Int)
| floatV (f : Frac)
| strV (s : String)
deriving DecidableEq, Repr

/-- Python truthiness `bool(v)` (used by unary `!`). -/
def pyTruthy : Value → Bool
| .intV n => n != 0
| .floatV f => !(fIsZero f)
| .strV s => s != ""

/-- Python `v != 0` (used by `IfGoto`; note a string never equals `0`). -/
def pyNeZero : Value → Bool
| .intV n => n != 0
| .floatV f => !(fIsZero f)
| .strV _ => true

/-- Python `str(v)`: display form used by `print` and string concatenation. -/
def display : Value → String
| .intV n => toString n
| .floatV f => renderFrac f
| .strV s => s

/-- Numeric view `float(v)` of a value, `none` on strings (the VM's
`isinstance(v, (int, float))` guard followed by `float(v)`). -/
def toNumF : Value → Option Frac
| .intV n => some (intFrac n)
| .floatV f => some f
| .strV _ => none

/-! ### IR instructions (ir.py) -/

/-- One three-address-code instruction, mirroring the dataclasses of
`ir.py` (`Label`, `FuncLabel`, `Goto`, `IfGoto`, `Assign`, `BinaryOp`,
`UnaryOp`, `PrintInstr`, `ReadInstr`, `ParamInstr`, `CallInstr`,
`ReturnInstr`). -/
inductive Instr where
| label (name : String)
| funcLabel (name : String)
| goto (target : String)
| ifGoto (condition target : String)
| assign (dest src : String)
| binOp (dest op left right : String)
| unOp (dest op operand : String)
| printI (value : String)
| readI (dest : String)
| param (value : String)
| call (dest : Option String) (callee : String) (argCount : Nat)
| ret (value : Option String)
deriving DecidableEq, Repr

/-! ### Association lists for Python dicts -/

/-- Python `d.get(k)` / `d[k]`. -/
def getA {α : Type} : List (String × α) → String → Option α
| [], _ => none
| (k, v) :: rest, key => if k == key then some v else getA rest key

/-- Python `d[k] = v`: update in place, or append a new binding. -/
def setA {α : Type} : List (String × α) → String → α → List (String × α)
| [], key, v => [(key, v)]
| (k, w) :: rest, key, v =>
  if k == key then (key, v) :: rest else (k, w) :: setA rest key v

/-! ### Operand decoding (vm.py `VirtualMachine._get`) -/

/-- Environment of a frame: variable name to value. -/
abbrev Env : Type := List (String × Value)

/-- Python `int(s)`: optional single sign then digits (`none` models the
`ValueError` a malformed literal such as `--5` raises). -/
def pyIntParse (cs : List Char) : Option Int :=
  match cs with
  | '-' :: rest => if rest ≠ [] ∧ allDig rest then some (-(digitsVal 0 rest : Int)) else none
  | '+' :: rest => if rest ≠ [] ∧ allDig rest then some (digitsVal 0 rest : Int) else none
  | _ => if cs ≠ [] ∧ allDig cs then some (digitsVal 0 cs : Int) else none

/-- Mantissa and exponent assembled into a fraction:
`sgn * ipfp / 10^(number of fractional digits) * 10^exp`. -/
def mkFloatVal (sgn : Int) (ip fp : List Char) (exp : Int) : Frac :=
  let n : Int := sgn * (digitsVal 0 (ip ++ fp) : Int)
  let den : Nat := 10 ^ fp.length
  if 0 ≤ exp then ⟨n * 10 ^ exp.toNat, den⟩ else ⟨n, den * 10 ^ (-exp).toNat⟩

/-- Exponent part of a Python float literal: `(e|E) sign? digits`
followed by end of string. -/
def pyFloatExp (sgn : Int) (ip fp : List Char) : List Char → Option Frac
| [] => some (mkFloatVal sgn ip fp 0)
| e :: rest =>
  if e == 'e' || e == 'E' then
    let (esgn, rest1) : Int × List Char :=
      match rest with
      | '+' :: r => (1, r)
      | '-' :: r => (-1, r)
      | r => (1, r)
    let (ed, rest2) := rest1.span isDig
    if ed = [] ∨ rest2 ≠ [] then none
    else some (mkFloatVal sgn ip fp (esgn * (digitsVal 0 ed : Int)))
  else none

/-- Python `float(s)` on the standard decimal grammar
`sign? (digits [. digits?] | . digits) exponent?` (the `inf`/`nan`/underscore
forms never reach the float branch of `_get`, which also demands a `.` or an
`e`, so they are not modelled). -/
def pyFloatParse (cs : List Char) : Option Frac :=
  let (sgn, cs1) : Int × List Char :=
    match cs with
    | '+' :: r => (1, r)
    | '-' :: r => (-1, r)
    | r => (1, r)
  let (ip, cs2) := cs1.span isDig
  match cs2 with
  | '.' :: cs3 =>
    let (fp, cs4) := cs3.span isDig
    if ip = [] ∧ fp = [] then none else pyFloatExp sgn ip fp cs4
  | _ => if ip = [] then none else pyFloatExp sgn ip [] cs2

/-- The `"0"`/`"1"` fallback at the end of `_get` (unreachable after the
digit branch, kept for faithfulness), then the uninitialized-use error. -/
def decodeBoolFallback (s : String) : Option Value :=
  if s == "0" then some (.intV 0) else if s == "1" then some (.intV 1) else none

/-- `VirtualMachine._get`: decode a TAC operand in an environment.  `none`
models `VMError` (uninitialized use) and the `ValueError` of `int()` on a
multi-sign literal. -/
def decodeOperand (env : Env) (operand : String) : Option Value :=
  if headIs operand '"' && lastIs operand '"' then
    some (.strV (innerStr operand))
  else
    match getA env operand with
    | some v => some v
    | none =>
      let cs := operand.data
      let stripped := stripMinus cs
      if stripped ≠ [] && allDig stripped then
        (pyIntParse cs).map .intV
      else
        match pyFloatParse cs with
        | some f => if hasDotOrE cs then some (.floatV f) else decodeBoolFallback operand
        | none => decodeBoolFallback operand

/-! ### Binary and unary execution (vm.py `run`, BinaryOp / UnaryOp cases) -/

/-- Narrow an exactly integral float result to an integer
(`if isinstance(r, float) and r.is_integer(): r = int(r)`). -/
def narrowNum (v : Value) : Value :=
  match v with
  | .floatV f => if fIsInt f then .intV (fToInt f) else .floatV f
  | _ => v

/-- Execute a decoded binary operation (the arithmetic core of the
`BinaryOp` case).  `none` models `VMError` (and the uncaught
`ZeroDivisionError` of `%` by zero). -/
def binCompute (op : String) (a b : Value) : Option Value :=
  if op == "+" && (a matches .strV _ || b matches .strV _) then
    some (.strV (display a ++ display b))
  else
    match toNumF a, toNumF b with
    | some aF, some bF =>
      (match op with
       | "+" => some (narrowNum (.floatV (fadd aF bF)))
       | "-" => some (narrowNum (.floatV (fsub aF bF)))
       | "*" => some (narrowNum (.floatV (fmul aF bF)))
       | "/" => if fIsZero bF then none else some (narrowNum (.floatV (fdiv aF bF)))
       | "%" =>
         (match a, b with
          | .intV x, .intV y => if y == 0 then none else some (.intV (Int.fmod x y))
          | _, _ => none)
       | "<" => some (.intV (if fLt aF bF then 1 else 0))
       | "<=" => some (.intV (if fLe aF bF then 1 else 0))
       | ">" => some (.intV (if fLt bF aF then 1 else 0))
       | ">=" => some (.intV (if fLe bF aF then 1 else 0))
       | "==" => some (.intV (if fEq aF bF then 1 else 0))
       | "!=" => some (.intV (if fEq aF bF then 0 else 1))
       | "&&" => some (.intV (if !(fIsZero aF) && !(fIsZero bF) then 1 else 0))
       | "||" => some (.intV (if !(fIsZero aF) || !(fIsZero bF) then 1 else 0))
       | _ => none)
    | _, _ => none

/-- The whole `BinaryOp` case: both operands are decoded first (left then
right), with no short-circuit for `&&`/`||`. -/
def binOpResult (env : Env) (op left right : String) : Option Value :=
  match decodeOperand env left with
  | none => none
  | some a =>
    match decodeOperand env right with
    | none => none
    | some b => binCompute op a b

/-- The `UnaryOp` case. -/
def unOpResult (env : Env) (op operand : String) : Option Value :=
  match decodeOperand env operand with
  | none => none
  | some a =>
    if op == "-" then
      match a with
      | .intV n => some (.intV (-n))
      | .floatV f => some (.floatV (fneg f))
      | .strV _ => none
    else if op == "!" then
      some (.intV (if pyTruthy a then 0 else 1))
    else none

/-- Conversion applied by the `Read` instruction to one input line
(strip, then float if it shows a `.` or `e`, else int, else raw string). -/
def readConv (raw : String) : Value :=
  let isSp : Char → Bool := fun c => c == ' ' || c == '\t' || c == '\n' || c == '\r'
  let cs := (raw.data.dropWhile isSp).reverse.dropWhile isSp |>.reverse
  if hasDotOrE cs then
    match pyFloatParse cs with
    | some f => .floatV f
    | none => .strV (String.mk cs)
  else
    match pyIntParse cs with
    | some n => .intV n
    | none => .strV (String.mk cs)

/-! ### The virtual machine state and step relation (vm.py `run`) -/

/-- One activation record (`Frame` in vm.py). -/
structure Frame where
  funcName : Option String
  env : Env
  returnIp : Nat
  retDest : Option String
deriving DecidableEq, Repr

/-- The machine state during `run`: Python's lists are kept in Python
order (frames and pending arguments are pushed at the end). -/
structure VmState where
  instrs : List Instr
  labels : List (String × Nat)
  funcLabels : List (String × Nat)
  funcParams : List (String × List String)
  frames : List Frame
  currentFunc : Option String
  env : Env
  ip : Nat
  argStack : List Value
  inputs : List String
  output : List String
deriving DecidableEq, Repr

/-- Outcome of one iteration of the `while` loop in `run`. -/
inductive StepRes where
| cont (s : VmState)
| halt (v : Option Value)
| vmErr
deriving DecidableEq, Repr

/-- Python `frames.pop()`: remove the last element. -/
def popLastFrame : List Frame → Option (Frame × List Frame)
| [] => none
| [f] => some (f, [])
| f :: rest =>
  match popLastFrame rest with
  | some (l, r) => some (l, f :: r)
  | none => none

/-- Bind declared parameter names to arguments in a fresh environment
(`for name, val in zip(param_names, args)`). -/
def bindParams (ps : List String) (args : List Value) : Env :=
  (List.zip ps args).foldl (fun e p => setA e p.1 p.2) []

/-- One iteration of the main execution loop of `run` on the instruction
at `ip` (the caller guarantees `ip < instrs.length`). -/
def vmStep (s : VmState) : StepRes :=
  match s.instrs.get? s.ip with
  | none => .vmErr
  | some ins =>
    match ins with
    | .label _ => .cont { s with ip := s.ip + 1 }
    | .funcLabel _ => .cont { s with ip := s.ip + 1 }
    | .assign d src =>
      (match decodeOperand s.env src with
       | none => .vmErr
       | some v => .cont { s with env := setA s.env d v, ip := s.ip + 1 })
    | .binOp d op l r =>
      (match binOpResult s.env op l r with
       | none => .vmErr
       | some v => .cont { s with env := setA s.env d v, ip := s.ip + 1 })
    | .unOp d op x =>
      (match unOpResult s.env op x with
       | none => .vmErr
       | some v => .cont { s with env := setA s.env d v, ip := s.ip + 1 })
    | .goto t =>
      (match getA s.labels t with
       | none => .vmErr
       | some j => .cont { s with ip := j })
    | .ifGoto c t =>
      (match decodeOperand s.env c with
       | none => .vmErr
       | some v =>
         if pyNeZero v then
           match getA s.labels t with
           | none => .vmErr
           | some j => .cont { s with ip := j }
         else .cont { s with ip := s.ip + 1 })
    | .printI v =>
      (match decodeOperand s.env v with
       | none => .vmErr
       | some val => .cont { s with output := s.output ++ [display val], ip := s.ip + 1 })
    | .readI d =>
      (match s.inputs with
       | [] => .vmErr
       | line :: rest =>
         .cont { s with env := setA s.env d (readConv line), inputs := rest, ip := s.ip + 1 })
    | .param v =>
      (match decodeOperand s.env v with
       | none => .vmErr
       | some val => .cont { s with argStack := s.argStack ++ [val], ip := s.ip + 1 })
    | .call d callee n =>
      (match getA s.funcLabels callee with
       | none => .vmErr
       | some fidx =>
         if s.argStack.length < n then .vmErr
         else
           -- Python slicing: `arg_stack[-n:]` is the last n elements for
           -- n > 0 but the whole list for n = 0, and `arg_stack[:-n]`
           -- is everything but the last n for n > 0 but empty for n = 0,
           -- so a zero-argument call drains the pending stack.
           let args := if n == 0 then s.argStack
             else s.argStack.drop (s.argStack.length - n)
           let rest := if n == 0 then []
             else s.argStack.take (s.argStack.length - n)
           let pnames := (getA s.funcParams callee).getD []
           if pnames.length ≠ n then .vmErr
           else
             .cont { s with
               frames := s.frames ++ [⟨s.currentFunc, s.env, s.ip + 1, d⟩],
               env := bindParams pnames args,
               currentFunc := some callee,
               argStack := rest,
               ip := fidx + 1 })
    | .ret v =>
      (match (match v with
              | none => some (none : Option Value)
              | some operand => (decodeOperand s.env operand).map some) with
       | none => .vmErr
       | some rv =>
         match popLastFrame s.frames with
         | none => .halt rv
         | some (fr, restF) =>
           let env2 :=
             match fr.retDest, rv with
             | some dst, some rvv => setA fr.env dst rvv
             | _, _ => fr.env
           .cont { s with
             frames := restF,
             env := env2,
             currentFunc := fr.funcName,
             ip := fr.returnIp })

/-- Outcome of a whole run. -/
inductive RunRes where
| done (v : Option Value)
| errorR
| fuelOut
deriving DecidableEq, Repr

/-- The `while self.ip < len(self.instructions)` loop; falling off the end
returns the (never otherwise set) `return_value`, i.e. `none`. -/
def vmRun : Nat → VmState → RunRes
| 0, _ => .fuelOut
| fuel + 1, s =>
  if s.ip < s.instrs.length then
    match vmStep s with
    | .cont s2 => vmRun fuel s2
    | .halt v => .done v
    | .vmErr => .errorR
  else .done none

/-- `_index_labels`: build the label and function-label maps (a later
duplicate overwrites an earlier one, as in a Python dict). -/
def indexLabels (instrs : List Instr) :
    List (String × Nat) × List (String × Nat) :=
  (instrs.enum.foldl
    (fun (m : List (String × Nat) × List (String × Nat)) p =>
      match p.2 with
      | .label nm => (setA m.1 nm p.1, m.2)
      | .funcLabel nm => (m.1, setA m.2 nm p.1)
      | _ => m)
    ([], []))

/-- Initial state plus the `main` lookup of `run`; `errorR` when `main`
is missing. -/
def runProgram (instrs : List Instr) (funcParams : List (String × List String))
    (inputs : List String) (fuel : Nat) : RunRes :=
  let idx := indexLabels instrs
  match getA idx.2 "main" with
  | none => .errorR
  | some mainIdx =>
    vmRun fuel
      { instrs := instrs
        labels := idx.1
        funcLabels := idx.2
        funcParams := funcParams
        frames := []
        currentFunc := some "main"
        env := []
        ip := mainIdx + 1
        argStack := []
        inputs := inputs
        output := [] }

/-! ### Optimizer (optimizer.py) -/

/-- Python `val.replace(".", "", 1)`: remove the first dot. -/
def dropFirstDot : List Char → List Char
| [] => []
| '.' :: cs => cs
| c :: cs => c :: dropFirstDot cs

/-- `Optimizer._is_constant`: quoted string, digits with at most one dot,
or the bare `0`/`1` booleans (the last test is kept although the digit
test already subsumes it). -/
def isConstant (val : String) : Bool :=
  if headIs val '"' && lastIs val '"' then true
  else if dropFirstDot val.data ≠ [] && allDig (dropFirstDot val.data) then true
  else if val == "0" || val == "1" then true
  else false

/-- A Python number inside the folder: `int` or `float`. -/
inductive FoldNum where
| intN (n : Int)
| floatN (f : Frac)
deriving DecidableEq, Repr

/-- The folder's operand conversion
`float(s) if "." in s else int(s)`. -/
def foldParseNum (s : String) : Option FoldNum :=
  if hasChar s.data '.' then (pyFloatParse s.data).map .floatN
  else (pyIntParse s.data).map .intN

def foldNumToFrac : FoldNum → Frac
| .intN n => intFrac n
| .floatN f => f

/-- Python `bool(n)` on a number. -/
def foldNumTruthy (v : FoldNum) : Bool := !(fIsZero (foldNumToFrac v))

/-- Python `+`, `-`, `*` on two numbers: `int` only when both are `int`. -/
def foldArith (f : Frac → Frac → Frac) (g : Int → Int → Int) :
    FoldNum → FoldNum → FoldNum
| .intN a, .intN b => .intN (g a b)
| a, b => .floatN (f (foldNumToFrac a) (foldNumToFrac b))

/-- Python `repr(r).replace("'", "")` on the folded result (the `replace`
never fires on a numeric repr). -/
def renderFoldNum : FoldNum → String
| .intN n => toString n
| .floatN f => renderFrac f

/-- `Optimizer._fold_binary`: `none` models the `RuntimeError`s it raises
and the uncaught `ZeroDivisionError` of a division by zero. -/
def foldBinary (op left right : String) : Option String :=
  if headIs left '"' || headIs right '"' then
    if op == "+" then some (dropLastStr left ++ dropHeadStr right) else none
  else
    match foldParseNum left, foldParseNum right with
    | some a, some b =>
      (match op with
       | "+" => some (renderFoldNum (foldArith fadd (· + ·) a b))
       | "-" => some (renderFoldNum (foldArith fsub (· - ·) a b))
       | "*" => some (renderFoldNum (foldArith fmul (· * ·) a b))
       | "/" =>
         if fIsZero (foldNumToFrac b) then none
         else some (renderFoldNum (.floatN (fdiv (foldNumToFrac a) (foldNumToFrac b))))
       | "%" =>
         (match a, b with
          | .intN x, .intN y => if y == 0 then none else some (renderFoldNum (.intN (Int.fmod x y)))
          | _, _ => none)
       | "<" => some (if fLt (foldNumToFrac a) (foldNumToFrac b) then "1" else "0")
       | "<=" => some (if fLe (foldNumToFrac a) (foldNumToFrac b) then "1" else "0")
       | ">" => some (if fLt (foldNumToFrac b) (foldNumToFrac a) then "1" else "0")
       | ">=" => some (if fLe (foldNumToFrac b) (foldNumToFrac a) then "1" else "0")
       | "==" => some (if fEq (foldNumToFrac a) (foldNumToFrac b) then "1" else "0")
       | "!=" => some (if fEq (foldNumToFrac a) (foldNumToFrac b) then "0" else "1")
       | "&&" => some (if foldNumTruthy a && foldNumTruthy b then "1" else "0")
       | "||" => some (if foldNumTruthy a || foldNumTruthy b then "1" else "0")
       | _ => none)
    | _, _ => none

/-- `Optimizer._fold_unary`. -/
def foldUnary (op operand : String) : Option String :=
  if headIs operand '"' then none
  else
    match foldParseNum operand with
    | none => none
    | some v =>
      if op == "-" then
        some (renderFoldNum
          (match v with
           | .intN n => .intN (-n)
           | .floatN f => .floatN (fneg f)))
      else if op == "!" then
        some (if foldNumTruthy v then "0" else "1")
      else none

/-- The constant map `consts : name → literal operand`. -/
abbrev CMap := List (String × String)

/-- One iteration of the `constant_propagation` loop: the updated map and
the instruction appended to `new` (`none` models a folding error). -/
def cpStep (consts : CMap) (i : Instr) : Option (CMap × Instr) :=
  match i with
  | .assign d src =>
    if isConstant src then some (setA consts d src, i) else some (consts, i)
  | .binOp d op l r =>
    let l2 := (getA consts l).getD l
    let r2 := (getA consts r).getD r
    if isConstant l2 && isConstant r2 then
      match foldBinary op l2 r2 with
      | none => none
      | some f => some (setA consts d f, .assign d f)
    else some (consts, .binOp d op l2 r2)
  | .unOp d op x =>
    let x2 := (getA consts x).getD x
    if isConstant x2 then
      match foldUnary op x2 with
      | none => none
      | some f => some (setA consts d f, .assign d f)
    else some (consts, .unOp d op x2)
  | _ => some (consts, i)

/-- The sweep of `constant_propagation` from a given map. -/
def cpGo (consts : CMap) : List Instr → Option (List Instr)
| [] => some []
| i :: rest =>
  match cpStep consts i with
  | none => none
  | some (c2, i2) => (cpGo c2 rest).map (i2 :: ·)

/-- `Optimizer.constant_propagation`. -/
def constantPropagation (l : List Instr) : Option (List Instr) := cpGo [] l

/-- Operand names an instruction puts into the `used` set of
`remove_dead_temps` (an empty-string operand or dest is falsy in Python
and is skipped). -/
def usedOperands : Instr → List String
| .assign _ src => [src]
| .binOp _ _ l r => [l, r]
| .unOp _ _ x => [x]
| .printI v => [v]
| .ifGoto c _ => [c]
| .ret (some v) => if v == "" then [] else [v]
| .param v => [v]
| .call (some d) _ _ => if d == "" then [] else [d]
| _ => []

/-- Phase 1 of `remove_dead_temps`: the full `used` set. -/
def usedSet (l : List Instr) : List String :=
  l.foldl (fun acc i => acc ++ usedOperands i) []

/-- `Optimizer.remove_dead_temps`: drop assignments whose destination
starts with `t` and is not used. -/
def removeDeadTemps (l : List Instr) : List Instr :=
  let u := usedSet l
  l.filter (fun i =>
    match i with
    | .assign d _ => !(headIs d 't' && !(u.contains d))
    | _ => true)

/-- `Optimizer.remove_trivial_gotos`: drop a `goto` immediately followed
by its own label (the lookahead inspects the original list, which the
recursion preserves because only the current element is ever dropped). -/
def removeTrivialGotos : List Instr → List Instr
| [] => []
| i :: rest =>
  match i, rest with
  | .goto t, .label n :: _ =>
    if t == n then removeTrivialGotos rest else .goto t :: removeTrivialGotos rest
  | _, _ => i :: removeTrivialGotos rest

/-- `Optimizer.optimize`: the three passes in their fixed order. -/
def optimize (l : List Instr) : Option (List Instr) :=
  (constantPropagation l).map (fun l1 => removeTrivialGotos (removeDeadTemps l1))

/-! ### AST (ast.py), with the nested lists and options of the Python
dataclasses mirrored by mutually inductive types -/

/-- A literal value carried by `LiteralExpr` (Python int, float, bool or
str). -/
inductive LitVal where
| intL (n : Int)
| floatL (f : Frac)
| boolL (b : Bool)
| strL (s : String)
deriving DecidableEq, Repr

mutual

/-- Expressions (`LiteralExpr`, `VarExpr`, `GroupingExpr`, `UnaryExpr`,
`BinaryExpr`, `AssignmentExpr`, `CallExpr`). -/
inductive ExprA where
| lit (value : LitVal)
| varE (name : String)
| group (e : ExprA)
| unary (op : String) (operand : ExprA)
| binary (left : ExprA) (op : String) (right : ExprA)
| assignE (name : String) (value : ExprA)
| callE (callee : String) (args : ExprListA)

/-- A `List[Expr]` of call arguments. -/
inductive ExprListA where
| nil
| cons (e : ExprA) (rest : ExprListA)

/-- An `Optional[Expr]`. -/
inductive OptExprA where
| noneE
| someE (e : ExprA)

end

mutual

/-- Statements (`BlockStmt`, `VarDeclStmt`, `ExprStmt`, `IfStmt`,
`WhileStmt`, `DoWhileStmt`, `ForStmt`, `ReturnStmt`, `PrintStmt`,
`ReadStmt`; the read target keeps just the `VarExpr` name). -/
inductive StmtA where
| blockS (statements : StmtListA)
| varDecl (varType name : String) (initializer : OptExprA)
| exprS (e : ExprA)
| ifS (condition : ExprA) (thenBranch : StmtA) (elseBranch : OptStmtA)
| whileS (condition : ExprA) (body : StmtA)
| doWhileS (body : StmtA) (condition : ExprA)
| forS (init : OptStmtA) (condition : OptExprA) (update : OptExprA) (body : StmtA)
| returnS (value : OptExprA)
| printS (e : ExprA)
| readS (target : String)

/-- A `List[Stmt]`. -/
inductive StmtListA where
| nil
| cons (s : StmtA) (rest : StmtListA)

/-- An `Optional[Stmt]`. -/
inductive OptStmtA where
| noneS
| someS (s : StmtA)

end

/-- A function parameter (`Param`). -/
structure ParamA where
  paramType : String
  name : String
deriving DecidableEq, Repr

/-- A function declaration (`FunctionDecl`); the body is its block
statement. -/
structure FunctionDeclA where
  name : String
  params : List ParamA
  body : StmtA

/-- A program (`Program`): the list of function declarations. -/
abbrev ProgramA := List FunctionDeclA

/-! ### IR generator (ir_generator.py) -/

/-- Generator state: the emitted instructions and the two counters. -/
structure GenSt where
  instrs : List Instr
  tempCount : Nat
  labelCount : Nat
deriving Repr

/-- Name produced by `new_temp` for counter value `n`. -/
def tempName (n : Nat) : String := "t" ++ toString n

/-- Name produced by `new_label` for a prefix and counter value. -/
def labelName (pre : String) (n : Nat) : String := pre ++ toString n

/-- `emit`: append one instruction. -/
def emit (s : GenSt) (i : Instr) : GenSt := { s with instrs := s.instrs ++ [i] }

/-- `new_temp`: fresh temporary plus updated state. -/
def newTemp (s : GenSt) : String × GenSt :=
  (tempName s.tempCount, { s with tempCount := s.tempCount + 1 })

/-- `new_label`. -/
def newLabel (s : GenSt) (pre : String) : String × GenSt :=
  (labelName pre s.labelCount, { s with labelCount := s.labelCount + 1 })

/-- `_gen_expr` literal encoding: bool first (`"1"`/`"0"`), then numeric
`str(v)`, then quote-wrapped strings. -/
def encodeLit : LitVal → String
| .boolL b => if b then "1" else "0"
| .intL n => toString n
| .floatL f => renderFrac f
| .strL s => "\"" ++ s ++ "\""

mutual

/-- `IRGenerator._gen_expr`: returns the operand naming the value and the
updated state. -/
def genExpr (s : GenSt) : ExprA → String × GenSt
| .lit v =>
  let (t, s1) := newTemp s
  (t, emit s1 (.assign t (encodeLit v)))
| .varE name => (name, s)
| .group e => genExpr s e
| .unary op operand =>
  let (o, s1) := genExpr s operand
  let (t, s2) := newTemp s1
  (t, emit s2 (.unOp t op o))
| .binary left op right =>
  let (l, s1) := genExpr s left
  let (r, s2) := genExpr s1 right
  let (t, s3) := newTemp s2
  (t, emit s3 (.binOp t op l r))
| .assignE name value =>
  let (v, s1) := genExpr s value
  (name, emit s1 (.assign name v))
| .callE callee args =>
  let (cnt, s1) := genCallArgs s args
  let (t, s2) := newTemp s1
  (t, emit s2 (.call (some t) callee cnt))

/-- The argument loop of `_gen_call`: lower each argument, emit its
`param`, and count. -/
def genCallArgs (s : GenSt) : ExprListA → Nat × GenSt
| .nil => (0, s)
| .cons e rest =>
  let (v, s1) := genExpr s e
  let s2 := emit s1 (.param v)
  let (c, s3) := genCallArgs s2 rest
  (c + 1, s3)

end

mutual

/-- `IRGenerator._gen_stmt` (with `_gen_if`, `_gen_while`, `_gen_do_while`
and `_gen_for` inlined at their call sites). -/
def genStmt (s : GenSt) : StmtA → GenSt
| .blockS stmts => genStmtList s stmts
| .varDecl _ name initializer =>
  (match initializer with
   | .noneE => s
   | .someE e =>
     let (src, s1) := genExpr s e
     emit s1 (.assign name src))
| .exprS e => (genExpr s e).2
| .ifS condition thenBranch elseBranch =>
  let (cond, s1) := genExpr s condition
  let (thenL, s2) := newLabel s1 "L_then_"
  let (elseL, s3) := newLabel s2 "L_else_"
  let (endL, s4) := newLabel s3 "L_end_"
  let s5 := emit (emit s4 (.ifGoto cond thenL)) (.goto elseL)
  let s6 := genStmt (emit s5 (.label thenL)) thenBranch
  let s7 := emit (emit s6 (.goto endL)) (.label elseL)
  let s8 :=
    match elseBranch with
    | .noneS => s7
    | .someS b => genStmt s7 b
  emit s8 (.label endL)
| .whileS condition body =>
  let (beginL, s1) := newLabel s "L_while_begin_"
  let (bodyL, s2) := newLabel s1 "L_while_body_"
  let (endL, s3) := newLabel s2 "L_while_end_"
  let (cond, s4) := genExpr (emit s3 (.label beginL)) condition
  let s5 := emit (emit s4 (.ifGoto cond bodyL)) (.goto endL)
  let s6 := genStmt (emit s5 (.label bodyL)) body
  emit (emit s6 (.goto beginL)) (.label endL)
| .doWhileS body condition =>
  let (bodyL, s1) := newLabel s "L_do_body_"
  let (endL, s2) := newLabel s1 "L_do_end_"
  let s3 := genStmt (emit s2 (.label bodyL)) body
  let (cond, s4) := genExpr s3 condition
  emit (emit s4 (.ifGoto cond bodyL)) (.label endL)
| .forS init condition update body =>
  let s1 :=
    match init with
    | .noneS => s
    | .someS st => genStmt s st
  let (beginL, s2) := newLabel s1 "L_for_begin_"
  let (bodyL, s3) := newLabel s2 "L_for_body_"
  let (endL, s4) := newLabel s3 "L_for_end_"
  let s5 := emit s4 (.label beginL)
  let s6 :=
    match condition with
    | .someE c =>
      let (cond, sc) := genExpr s5 c
      emit (emit sc (.ifGoto cond bodyL)) (.goto endL)
    | .noneE => emit s5 (.goto bodyL)
  let s7 := genStmt (emit s6 (.label bodyL)) body
  let s8 :=
    match update with
    | .noneE => s7
    | .someE u => (genExpr s7 u).2
  emit (emit s8 (.goto beginL)) (.label endL)
| .returnS value =>
  (match value with
   | .someE e =>
     let (v, s1) := genExpr s e
     emit s1 (.ret (some v))
   | .noneE => emit s (.ret none))
| .printS e =>
  let (v, s1) := genExpr s e
  emit s1 (.printI v)
| .readS target => emit s (.readI target)

/-- Loop over the statements of a block. -/
def genStmtList (s : GenSt) : StmtListA → GenSt
| .nil => s
| .cons st rest => genStmtList (genStmt s st) rest

end

/-- `IRGenerator._gen_function`: the function label then the body. -/
def genFunction (s : GenSt) (f : FunctionDeclA) : GenSt :=
  genStmt (emit s (.funcLabel f.name)) f.body

/-- `IRGenerator.generate` on a fresh generator (as `generate_ir` builds
one): both counters start at zero. -/
def generate (p : ProgramA) : List Instr :=
  (p.foldl genFunction { instrs := [], tempCount := 0, labelCount := 0 }).instrs

/-- The `func_param_names` dict the driver (`main.py`) hands to the VM
(a later duplicate name would overwrite an earlier one). -/
def funcParamNames (p : ProgramA) : List (String × List String) :=
  p.foldl (fun m f => setA m f.name (f.params.map (·.name))) []

/-! ### Symbol table (symbol_table.py) -/

/-- A symbol: variable with its static type, or function with its
(initially unset) return type and parameter list. -/
inductive Sym where
| varS (ty : String)
| funcS (retTy : Option String) (params : List ParamA)
deriving DecidableEq, Repr

/-- The scope stack: named non-global scopes (innermost first) over the
global scope. -/
structure SymTab where
  globalScope : List (String × Sym)
  stack : List (String × List (String × Sym))
deriving DecidableEq, Repr

def initSymTab : SymTab := { globalScope := [], stack := [] }

/-- `push_scope`. -/
def pushScope (st : SymTab) (name : String) : SymTab :=
  { st with stack := (name, []) :: st.stack }

/-- `pop_scope`; `none` models the error on leaving the global scope. -/
def popScope (st : SymTab) : Option SymTab :=
  match st.stack with
  | [] => none
  | _ :: r => some { st with stack := r }

/-- `define_var`: declare in the current scope; `none` models the
redeclaration error. -/
def defineVar (st : SymTab) (name ty : String) : Option SymTab :=
  match st.stack with
  | [] =>
    if (getA st.globalScope name).isSome then none
    else some { st with globalScope := st.globalScope ++ [(name, .varS ty)] }
  | (scn, sc) :: rest =>
    if (getA sc name).isSome then none
    else some { st with stack := (scn, sc ++ [(name, .varS ty)]) :: rest }

/-- `define_func`: declare in the global scope (an omitted parameter list
defaults to the empty list, as in the Python signature). -/
def defineFunc (st : SymTab) (name : String) (retTy : Option String)
    (params : List ParamA) : Option SymTab :=
  if (getA st.globalScope name).isSome then none
  else some { st with globalScope := st.globalScope ++ [(name, .funcS retTy params)] }

/-- Walk the non-global scopes innermost-out. -/
def resolveChain : List (String × List (String × Sym)) → String → Option Sym
| [], _ => none
| (_, sc) :: rest, n =>
  match getA sc n with
  | some s => some s
  | none => resolveChain rest n

/-- `resolve`: current scope chain, then the global scope. -/
def resolveSym (st : SymTab) (n : String) : Option Sym :=
  match resolveChain st.stack n with
  | some s => some s
  | none => getA st.globalScope n

/-- `resolve_global`. -/
def resolveGlobal (st : SymTab) (n : String) : Option Sym := getA st.globalScope n

/-- `set_func_return_type`; `none` models its `SymbolTableError`. -/
def setFuncReturnType (st : SymTab) (n : String) (rt : Option String) :
    Option SymTab :=
  match getA st.globalScope n with
  | some (.funcS _ ps) =>
    some { st with globalScope := setA st.globalScope n (.funcS rt ps) }
  | _ => none

/-! ### Semantic analyzer (semantic.py) -/

/-- A static type as the analyzer handles it: one of the four type tags,
`"void"`, or Python `None` (an uninferred function type), which the
analyzer itself passes around. -/
abbrev STy := Option String

/-- Semantic errors (`SemanticError`), abstracted from their message
strings; `internalErr` stands for the `SymbolTableError`s that would
escape uncaught (never reached from a parsed program). -/
inductive SemErr where
| redeclFunc (n : String)
| redeclParam (n : String)
| redeclVar (n : String)
| undeclaredVar (n : String)
| notAFunction (n : String)
| badArgCount (n : String)
| typeMismatch
| badReturn (n : String)
| unsupportedOp (op : String)
| internalErr
deriving DecidableEq, Repr

/-- Analyzer state: symbol table plus the two current-function fields. -/
structure ASt where
  symtab : SymTab
  currentFunction : Option String
  currentReturnType : STy
deriving DecidableEq, Repr

/-- `_infer_literal_type` (`bool` is tested before `int`, as in the
source). -/
def literalType : LitVal → STy
| .boolL _ => some "bool"
| .intL _ => some "int"
| .floatL _ => some "float"
| .strL _ => some "string"

/-- The type attribute read off a resolved symbol (`symbol.type`): a
function symbol yields its — possibly still unset — return type. -/
def symType : Sym → STy
| .varS t => some t
| .funcS rt _ => rt

/-- `_ensure_type_compatible` as a predicate: string only with string,
int widens to float, otherwise equality. -/
def ensureCompat (expected found : STy) : Bool :=
  if expected == some "string" || found == some "string" then expected == found
  else if expected == some "float" && found == some "int" then true
  else expected == found

/-- `_require_numeric`. -/
def isNumericTy (t : STy) : Bool := t == some "int" || t == some "float"

/-- The operator lists of `_analyze_binary`. -/
def comparisonOps : List String := ["<", "<=", ">", ">=", "==", "!="]

def logicOps : List String := ["&&", "||"]

def arithOps : List String := ["+", "-", "*", "/", "%"]

mutual

/-- `_analyze_expr`: the type of an expression (expressions read the
state but never change it). -/
def analyzeExpr (a : ASt) : ExprA → Except SemErr STy
| .lit v => .ok (literalType v)
| .varE n =>
  (match resolveSym a.symtab n with
   | none => .error (.undeclaredVar n)
   | some s => .ok (symType s))
| .unary op operand => do
  let t ← analyzeExpr a operand
  if op == "-" then
    if isNumericTy t then .ok t else .error .typeMismatch
  else if op == "!" then
    if t == some "bool" then .ok (some "bool") else .error .typeMismatch
  else .error (.unsupportedOp op)
| .binary left op right => do
  let lt ← analyzeExpr a left
  let rt ← analyzeExpr a right
  if op == "+" && (lt == some "string" || rt == some "string") then
    .ok (some "string")
  else if comparisonOps.contains op then
    if ensureCompat lt rt then .ok (some "bool") else .error .typeMismatch
  else if logicOps.contains op then
    if lt == some "bool" then
      if rt == some "bool" then .ok (some "bool") else .error .typeMismatch
    else .error .typeMismatch
  else if arithOps.contains op then
    if isNumericTy lt then
      if isNumericTy rt then
        if op == "%" && (lt ≠ some "int" || rt ≠ some "int") then
          .error .typeMismatch
        else if lt == some "float" || rt == some "float" then .ok (some "float")
        else .ok (some "int")
      else .error .typeMismatch
    else .error .typeMismatch
  else .error (.unsupportedOp op)
| .group e => analyzeExpr a e
| .assignE n value =>
  (match resolveSym a.symtab n with
   | none => .error (.undeclaredVar n)
   | some s => do
     let vt ← analyzeExpr a value
     if ensureCompat (symType s) vt then .ok (symType s)
     else .error .typeMismatch)
| .callE callee args =>
  (match resolveGlobal a.symtab callee with
   | some (.funcS rt ps) =>
     if exprListLen args ≠ ps.length then .error (.badArgCount callee)
     else do
       let _ ← analyzeArgs a callee ps args
       .ok (match rt with | some t => some t | none => some "void")
   | _ => .error (.notAFunction callee))

/-- The argument-checking loop of `_analyze_call` (arity was checked, so
the parameter list never runs out). -/
def analyzeArgs (a : ASt) (callee : String) :
    List ParamA → ExprListA → Except SemErr Unit
| _, .nil => .ok ()
| [], .cons _ _ => .ok ()
| p :: pr, .cons e rest => do
  let t ← analyzeExpr a e
  if ensureCompat (some p.paramType) t then analyzeArgs a callee pr rest
  else .error .typeMismatch

/-- Length of an argument list. -/
def exprListLen : ExprListA → Nat
| .nil => 0
| .cons _ rest => exprListLen rest + 1

end

mutual

/-- `_analyze_stmt` (with the statement-specific helpers inlined). -/
def analyzeStmt (a : ASt) : StmtA → Except SemErr ASt
| .blockS stmts => do
  let a1 ← analyzeStmtList { a with symtab := pushScope a.symtab "block" } stmts
  (match popScope a1.symtab with
   | none => .error .internalErr
   | some st => .ok { a1 with symtab := st })
| .varDecl ty name initializer =>
  (match defineVar a.symtab name ty with
   | none => .error (.redeclVar name)
   | some st =>
     let a1 := { a with symtab := st }
     match initializer with
     | .noneE => .ok a1
     | .someE e => do
       let it ← analyzeExpr a1 e
       if ensureCompat (some ty) it then .ok a1 else .error .typeMismatch)
| .exprS e => do
  let _ ← analyzeExpr a e
  .ok a
| .ifS condition thenBranch elseBranch => do
  let ct ← analyzeExpr a condition
  if ct ≠ some "bool" then .error .typeMismatch
  else do
    let a1 ← analyzeStmt a thenBranch
    match elseBranch with
    | .noneS => .ok a1
    | .someS b => analyzeStmt a1 b
| .whileS condition body => do
  let ct ← analyzeExpr a condition
  if ct ≠ some "bool" then .error .typeMismatch
  else analyzeStmt a body
| .doWhileS body condition => do
  let a1 ← analyzeStmt a body
  let ct ← analyzeExpr a1 condition
  if ct ≠ some "bool" then .error .typeMismatch else .ok a1
| .forS init condition update body => do
  let a0 := { a with symtab := pushScope a.symtab "for" }
  let a1 ←
    match init with
    | .noneS => pure a0
    | .someS st => analyzeStmt a0 st
  let a2 ←
    match condition with
    | .noneE => pure a1
    | .someE c => do
      let ct ← analyzeExpr a1 c
      if ct ≠ some "bool" then .error .typeMismatch else pure a1
  let a3 ←
    match update with
    | .noneE => pure a2
    | .someE u => do
      let _ ← analyzeExpr a2 u
      pure a2
  let a4 ← analyzeStmt a3 body
  (match popScope a4.symtab with
   | none => .error .internalErr
   | some st => .ok { a4 with symtab := st })
| .returnS value => do
  let rt ←
    match value with
    | .noneE => pure (some "void" : STy)
    | .someE e => analyzeExpr a e
  (match a.currentReturnType with
   | none =>
     (match a.currentFunction with
      | none => .error .internalErr
      | some fn =>
        match setFuncReturnType a.symtab fn rt with
        | none => .error .internalErr
        | some st =>
          .ok { a with symtab := st, currentReturnType := rt })
   | some crt =>
     if (some crt : STy) ≠ rt then
       .error (.badReturn (a.currentFunction.getD ""))
     else .ok a)
| .printS e => do
  let _ ← analyzeExpr a e
  .ok a
| .readS target =>
  (match resolveSym a.symtab target with
   | some (.varS _) => .ok a
   | _ => .error (.undeclaredVar target))

/-- The statement loop of a block. -/
def analyzeStmtList (a : ASt) : StmtListA → Except SemErr ASt
| .nil => .ok a
| .cons st rest => do
  let a1 ← analyzeStmt a st
  analyzeStmtList a1 rest

end

/-- The parameter-declaration loop of `_analyze_function`. -/
def defineParams (a : ASt) : List ParamA → Except SemErr ASt
| [] => .ok a
| p :: rest =>
  match defineVar a.symtab p.name p.paramType with
  | none => .error (.redeclParam p.name)
  | some st => defineParams { a with symtab := st } rest

/-- `_analyze_function`. -/
def analyzeFunction (a : ASt) (f : FunctionDeclA) : Except SemErr ASt := do
  let a1 := { a with
    symtab := pushScope a.symtab f.name
    currentFunction := some f.name
    currentReturnType := none }
  let a2 ← defineParams a1 f.params
  let a3 ← analyzeStmt a2 f.body
  match popScope a3.symtab with
  | none => .error .internalErr
  | some st =>
    .ok { a3 with symtab := st, currentFunction := none, currentReturnType := none }

/-- Pass one of `analyze`: register every function in the global scope
with an unknown return type — and, as in the source call
`define_func(func.name, return_type=None)`, without its parameter list. -/
def registerFuncs (st : SymTab) : ProgramA → Except SemErr SymTab
| [] => .ok st
| f :: rest =>
  match defineFunc st f.name none [] with
  | none => .error (.redeclFunc f.name)
  | some st1 => registerFuncs st1 rest

/-- Pass two of `analyze`. -/
def analyzeFunctions (a : ASt) : ProgramA → Except SemErr ASt
| [] => .ok a
| f :: rest => do
  let a1 ← analyzeFunction a f
  analyzeFunctions a1 rest

/-- `SemanticAnalyzer.analyze` on a fresh analyzer. -/
def analyzeProgram (p : ProgramA) : Except SemErr Unit := do
  let st ← registerFuncs initSymTab p
  let _ ← analyzeFunctions
    { symtab := st, currentFunction := none, currentReturnType := none } p
  .ok ()

/-! ### Lexer numeric patterns (lexer.py) and the parser literal
classifier (parser.py `primary`) -/

/-- Length matched by the exponent part `[eE][+-]?\d+` of
`FLOAT_PATTERN`, if it matches here. -/
def expLen (cs : List Char) : Option Nat :=
  match cs with
  | e :: rest =>
    if e == 'e' || e == 'E' then
      let (signLen, r1) : Nat × List Char :=
        match rest with
        | '+' :: r => (1, r)
        | '-' :: r => (1, r)
        | r => (0, r)
      let (ds, _) := r1.span isDig
      if ds = [] then none else some (1 + signLen + ds.length)
    else none
  | [] => none

/-- Greedy prefix length matched by `FLOAT_PATTERN`
(`(\d+\.\d* | \.\d+)([eE][+-]?\d+)?  |  \d+[eE][+-]?\d+`),
alternatives tried in the source order. -/
def floatMatchLen (cs : List Char) : Option Nat :=
  let (d1, r1) := cs.span isDig
  let tryMantissa : Option Nat :=
    if d1 ≠ [] then
      match r1 with
      | '.' :: r2 =>
        let (d2, r3) := r2.span isDig
        some (d1.length + 1 + d2.length + ((expLen r3).getD 0))
      | _ => none
    else
      match cs with
      | '.' :: r2 =>
        let (d2, r3) := r2.span isDig
        if d2 = [] then none else some (1 + d2.length + ((expLen r3).getD 0))
      | _ => none
  match tryMantissa with
  | some n => some n
  | none => if d1 ≠ [] then (expLen r1).map (fun e => d1.length + e) else none

/-- The numeric branches of `tokenize` in source order: `FLOAT_PATTERN`
first, then `INT_PATTERN`; returns the token lexeme and the rest. -/
def lexNumeric (cs : List Char) : Option (String × List Char) :=
  match floatMatchLen cs with
  | some n => some (String.mk (cs.take n), cs.drop n)
  | none =>
    match cs.span isDig with
    | ([], _) => none
    | (d, r) => some (String.mk d, r)

/-- How `Parser.primary` classifies the token it is looking at. -/
inductive PrimKind where
| intLit
| floatLit
| boolLit
| strLit
| grouping
| identOrCall
| errTok
deriving DecidableEq, Repr

/-- The parser's keyword set. -/
def parserKeywords : List String :=
  ["func", "int", "float", "bool", "string",
   "if", "else", "while", "do", "for",
   "return", "print", "read",
   "true", "false"]

/-- First character is alphabetic or an underscore (`lex[0].isalpha() or
lex[0] == "_"`, ASCII fragment). -/
def headAlphaOrUnd (lex : String) : Bool :=
  match lex.data with
  | [] => false
  | c :: _ => c.isAlpha || c == '_'

/-- The branch cascade of `Parser.primary` on the current lexeme: number
(`lex.replace(".", "", 1).isdigit()`, float iff it shows a dot), `true` /
`false`, quoted string, grouping parenthesis, identifier-or-call, or the
final parse error. -/
def primaryKind (lex : String) : PrimKind :=
  if dropFirstDot lex.data ≠ [] && allDig (dropFirstDot lex.data) then
    (if hasChar lex.data '.' then .floatLit else .intLit)
  else if lex == "true" then .boolLit
  else if lex == "false" then .boolLit
  else if headIs lex '"' && lastIs lex '"' then .strLit
  else if lex == "(" then .grouping
  else if !(parserKeywords.contains lex) && headAlphaOrUnd lex then .identOrCall
  else .errTok

/-! ### Concrete programs used by the claim theorems -/

/-- The `fact` declaration of scenario S3:
`func fact(int n) { if (n <= 1) return 1; return n * fact(n - 1); }`. -/
def s3FactDecl : FunctionDeclA :=
  ⟨"fact", [⟨"int", "n"⟩],
    .blockS (.cons
      (.ifS (.binary (.varE "n") "<=" (.lit (.intL 1)))
        (.returnS (.someE (.lit (.intL 1)))) .noneS)
      (.cons
        (.returnS (.someE (.binary (.varE "n") "*"
          (.callE "fact" (.cons (.binary (.varE "n") "-" (.lit (.intL 1))) .nil)))))
        .nil))⟩

/-- The `main` declaration of scenario S3:
`func main() { print fact(5); return 0; }`. -/
def s3MainDecl : FunctionDeclA :=
  ⟨"main", [],
    .blockS (.cons
      (.printS (.callE "fact" (.cons (.lit (.intL 5)) .nil)))
      (.cons (.returnS (.someE (.lit (.intL 0)))) .nil))⟩

/-- The scenario-S3 program. -/
def s3Program : ProgramA := [s3FactDecl, s3MainDecl]

/-- A read-free, print-free program whose meaning the optimizer changes:
`func main() { string g = "a" + 1; return g; }`. -/
def c2Program : ProgramA :=
  [⟨"main", [],
    .blockS (.cons
      (.varDecl "string" "g"
        (.someE (.binary (.lit (.strL "a")) "+" (.lit (.intL 1)))))
      (.cons (.returnS (.someE (.varE "g"))) .nil))⟩]

/-- A program whose only statement discards a call:
`func main() { f(); }`. -/
def c10Program : ProgramA :=
  [⟨"main", [], .blockS (.cons (.exprS (.callE "f" .nil)) .nil)⟩]

/-- Modelled from the spec: a temporary name is `t` followed by digits
(used only to state which names the dead-temp claim calls temporaries). -/
def specIsTempName (s : String) : Bool :=
  match s.data with
  | 't' :: rest => rest ≠ [] && allDig rest
  | _ => false

/-! ### Claim theorems -/

/-- C1: the claim says a call whose argument count equals the declared
parameter count (with compatible types) passes semantic analysis, and in
particular S3's `fact(5)` against `func fact(int n)` does.  In the code,
`analyze` registers every function through `define_func(name,
return_type=None)` without its parameter list and `set_func_params` is
never called, so the `fact` symbol carries zero parameters and
`_analyze_call` rejects `fact(5)` with an argument-count error, although
the declaration has exactly one `int` parameter. -/
theorem c1_s3_arity_bug :
    s3FactDecl.params = [⟨"int", "n"⟩] ∧
    analyzeProgram s3Program = .error (.badArgCount "fact") :=
  ⟨rfl, rfl⟩

/-- C2: for the read-free, print-free program
`func main() { string g = "a" + 1; return g; }` the VM on the generated
IR returns the string `a1`, while on the optimized IR it raises a
vm-error (the fold of `"a" + 1` produces the undecodable operand `"a`),
so optimization does not preserve the return value of `main`. -/
theorem c2_optimizer_breaks_preservation :
    ((generate c2Program).all (fun i =>
      !(i matches .readI _) && !(i matches .printI _)) = true) ∧
    runProgram (generate c2Program) (funcParamNames c2Program) [] 100 =
      .done (some (.strV "a1")) ∧
    (optimize (generate c2Program)).map
      (fun l => runProgram l (funcParamNames c2Program) [] 100) =
      some .errorR :=
  ⟨rfl, rfl, rfl⟩

/-- C3: on literal operands `"a"` (a string) and `1`, the VM's `BinaryOp`
execution of `+` yields the string `a1`, but `_fold_binary` produces the
malformed operand `"a` (it strips the last character of the left literal
and the first character of the right one), which does not even decode —
so the folded constant does not encode the value the VM computes when
exactly one operand is a string. -/
theorem c3_fold_vm_disagree_on_string_plus :
    decodeOperand [] "\"a\"" = some (.strV "a") ∧
    decodeOperand [] "1" = some (.intV 1) ∧
    binOpResult [] "+" "\"a\"" "1" = some (.strV "a1") ∧
    foldBinary "+" "\"a\"" "1" = some "\"a" ∧
    decodeOperand [] "\"a" = none :=
  ⟨rfl, rfl, rfl, rfl, rfl⟩

/-- C5: the lexer's `FLOAT_PATTERN` matches the scientific-notation
lexeme `2e3` as one three-character token, but `Parser.primary`
classifies it by `lex.replace(".", "", 1).isdigit()` — false because of
the `e` — and no later branch accepts it (its first character is neither
alphabetic nor `_`), so the parser raises a parse error instead of
building a float `LiteralExpr`. -/
theorem c5_scientific_token_parse_error :
    lexNumeric "2e3;".data = some ("2e3", [';']) ∧
    primaryKind "2e3" = .errTok :=
  ⟨rfl, rfl⟩

/-- C4 counterexample: `total` is not a temporary in the spec's sense
(`t` followed by digits), yet `remove_dead_temps` deletes the assignment
`total = 5` because the name starts with the letter `t` and is unused. -/
theorem c4_counterexample_named_var_removed :
    specIsTempName "total" = false ∧
    removeDeadTemps [.assign "total" "5"] = [] :=
  ⟨rfl, rfl⟩

/-- C4 amended: dead-temp elimination never removes an instruction that
is not an assignment or whose destination does not begin with the letter
`t`; everything it removes is an assignment whose destination begins with
`t` (regardless of what follows, so named variables such as `total` are
fair game) and is absent from the `used` set. -/
theorem c4_dead_temp_removes_only_t_prefixed :
    ∀ (l : List Instr) (i : Instr), i ∈ l →
    ((∀ d s, i = .assign d s → headIs d 't' = false) → i ∈ removeDeadTemps l) ∧
    (i ∉ removeDeadTemps l →
      ∃ d s, i = .assign d s ∧ headIs d 't' = true ∧
        (usedSet l).contains d = false) := by
  intro l i hmem
  constructor
  · intro hna
    rw [removeDeadTemps, List.mem_filter]
    refine ⟨hmem, ?_⟩
    cases i with
    | assign d s =>
      have : headIs d 't' = false := hna d s rfl
      simp [this]
    | _ => simp
  · intro hnot
    rw [removeDeadTemps, List.mem_filter] at hnot
    push_neg at hnot
    have hp := hnot hmem
    cases i
    case assign d s =>
      refine ⟨d, s, rfl, ?_⟩
      have hp2 : ¬((!(headIs d 't' && !((usedSet l).contains d))) = true) := hp
      rcases h1 : headIs d 't' with _ | _ <;>
        rcases h2 : (usedSet l).contains d with _ | _ <;>
        rw [h1, h2] at hp2
      · exact absurd rfl hp2
      · exact absurd rfl hp2
      · exact ⟨rfl, rfl⟩
      · exact absurd rfl hp2
    all_goals exact absurd rfl hp

/-- C4 witness: the assignment `x = 5` (destination not `t`-prefixed)
survives dead-temp elimination. -/
theorem c4_witness :
    Instr.assign "x" "5" ∈ removeDeadTemps [Instr.assign "x" "5"] := by
  have h := (c4_dead_temp_removes_only_t_prefixed
    [Instr.assign "x" "5"] (Instr.assign "x" "5") (by simp)).1
  apply h
  intro d s hds
  cases hds
  rfl

/-! ### Adjacency patterns for the trivial-goto pass (claim C6) -/

/-- A `goto` immediately followed by its own label — the pattern the
pass removes. -/
def gotoLabelPair : Instr → Instr → Bool
| .goto t, .label n => t == n
| _, _ => false

/-- `gotoLabelPair` of an instruction with the head of a list. -/
def headPair (x : Instr) : List Instr → Bool
| y :: _ => gotoLabelPair x y
| [] => false

/-- Some adjacent goto–label pair occurs in the list. -/
def hasGL : List Instr → Bool
| a :: b :: rest => gotoLabelPair a b || hasGL (b :: rest)
| _ => false

/-- Two equal gotos immediately before their shared label. -/
def gglTriple : Instr → Instr → Instr → Bool
| .goto a, .goto b, .label n => a == b && b == n
| _, _, _ => false

/-- Some `goto t; goto t; L(t):` triple occurs in the list. -/
def hasGGL : List Instr → Bool
| a :: b :: c :: rest => gglTriple a b c || hasGGL (b :: c :: rest)
| _ => false

theorem hasGL_cons (x : Instr) (m : List Instr) :
    hasGL (x :: m) = (headPair x m || hasGL m) := by
  cases m <;> rfl

theorem hasGGL_tail (x : Instr) (l : List Instr) (h : hasGGL (x :: l) = false) :
    hasGGL l = false := by
  cases l with
  | nil => rfl
  | cons y r =>
    cases r with
    | nil => rfl
    | cons z r2 =>
      have h2 : (gglTriple x y z || hasGGL (y :: z :: r2)) = false := h
      exact (Bool.or_eq_false_iff.mp h2).2

/-- One step of `remove_trivial_gotos`: the head is kept (when it does
not form a trivial pair with the next instruction) or it is a dropped
trivial goto. -/
theorem rtg_cases (b : Instr) (r : List Instr) :
    (headPair b r = false ∧
      removeTrivialGotos (b :: r) = b :: removeTrivialGotos r) ∨
    (∃ t r2, b = .goto t ∧ r = .label t :: r2 ∧
      removeTrivialGotos (b :: r) = .label t :: removeTrivialGotos r2) := by
  cases r with
  | nil =>
    left
    refine ⟨rfl, ?_⟩
    cases b <;> rfl
  | cons c r2 =>
    cases b
    case goto t =>
      cases c
      case label n =>
        by_cases h : t = n
        · subst h
          right
          refine ⟨t, r2, rfl, rfl, ?_⟩
          have hb : (t == t) = true := by simp
          cases r2 <;> simp [removeTrivialGotos, hb]
        · left
          have hb : (t == n) = false := by simp [h]
          refine ⟨?_, ?_⟩
          · show gotoLabelPair (.goto t) (.label n) = false
            simpa [gotoLabelPair] using hb
          · show removeTrivialGotos (.goto t :: .label n :: r2) =
              .goto t :: removeTrivialGotos (.label n :: r2)
            simp [removeTrivialGotos, hb]
      all_goals (left; exact ⟨rfl, rfl⟩)
    all_goals (left; exact ⟨rfl, rfl⟩)

/-- A list without adjacent trivial pairs is a fixed point of the pass. -/
theorem rtg_fix : ∀ l, hasGL l = false → removeTrivialGotos l = l := by
  intro l
  induction l with
  | nil => intro _; rfl
  | cons a rest ih =>
    intro h
    have h2 : (headPair a rest || hasGL rest) = false := by
      rw [← hasGL_cons]; exact h
    have hhead := (Bool.or_eq_false_iff.mp h2).1
    have htail := (Bool.or_eq_false_iff.mp h2).2
    rcases rtg_cases a rest with ⟨_, hk⟩ | ⟨t, r2, hb, hr, _⟩
    · rw [hk, ih htail]
    · exfalso
      subst hb; subst hr
      have : ((t == t) : Bool) = false := hhead
      simp at this

/-- On a list without the `goto t; goto t; L(t):` triple, the output of
the pass has no adjacent trivial pair left. -/
theorem rtg_noGL : (l : List Instr) → hasGGL l = false →
    hasGL (removeTrivialGotos l) = false
| [], _ => rfl
| [a], _ => by cases a <;> rfl
| a :: b :: r, h => by
  have htail : hasGGL (b :: r) = false := hasGGL_tail a _ h
  have ihBR : hasGL (removeTrivialGotos (b :: r)) = false := rtg_noGL (b :: r) htail
  rcases rtg_cases a (b :: r) with ⟨hhp, hk⟩ | ⟨t, r2, ha, hr, hd⟩
  · rw [hk, hasGL_cons, ihBR, Bool.or_false]
    cases a
    case goto t =>
      rcases rtg_cases b r with ⟨_, hk2⟩ | ⟨u, r3, hb, hr2, hd2⟩
      · rw [hk2]
        exact hhp
      · subst hb; subst hr2
        rw [hd2]
        have h3 : (gglTriple (.goto t) (.goto u) (.label u) ||
            hasGGL (.goto u :: .label u :: r3)) = false := h
        have h4 := (Bool.or_eq_false_iff.mp h3).1
        have h5 : (t == u) = false := by
          have hu : (u == u) = true := by simp
          have h4b : ((t == u) && (u == u)) = false := h4
          simpa [hu] using h4b
        show (t == u) = false
        exact h5
    all_goals (cases hM : removeTrivialGotos (b :: r) <;> rfl)
  · subst ha
    injection hr with hb1 hr1
    subst hb1; subst hr1
    rw [hd]
    have hlab : removeTrivialGotos (.label t :: r) =
        .label t :: removeTrivialGotos r := by
      rcases rtg_cases (.label t) r with ⟨_, hk2⟩ | ⟨u, r3, habs, _, _⟩
      · exact hk2
      · exact Instr.noConfusion habs
    rw [← hlab]
    exact ihBR

/-- C6 counterexample: on `goto L; goto L; L:` one application of
`remove_trivial_gotos` keeps the first goto (its immediate successor is
another goto), while a second application removes it — the pass is not
idempotent on every instruction list. -/
theorem c6_counterexample_double_goto :
    removeTrivialGotos [Instr.goto "L", Instr.goto "L", Instr.label "L"] =
      [Instr.goto "L", Instr.label "L"] ∧
    removeTrivialGotos (removeTrivialGotos
      [Instr.goto "L", Instr.goto "L", Instr.label "L"]) =
      [Instr.label "L"] :=
  ⟨rfl, rfl⟩

/-- C6 amended: `remove_trivial_gotos` is idempotent on every instruction
list that nowhere contains two identical adjacent gotos directly before
their shared label (`goto t; goto t; L(t):`) — the only pattern on which
a second application removes more. -/
theorem c6_rtg_idempotent_without_ggl :
    ∀ l, hasGGL l = false →
      removeTrivialGotos (removeTrivialGotos l) = removeTrivialGotos l :=
  fun l h => rtg_fix _ (rtg_noGL l h)

/-- C6 witness: a concrete list (with one removable trivial goto) on
which the pass is idempotent. -/
theorem c6_witness :
    removeTrivialGotos (removeTrivialGotos
      [Instr.goto "a", Instr.label "b", Instr.goto "c", Instr.label "c"]) =
    removeTrivialGotos
      [Instr.goto "a", Instr.label "b", Instr.goto "c", Instr.label "c"] :=
  c6_rtg_idempotent_without_ggl _ rfl

/-- C7: for `&&` and `||` the VM decodes both operands before the logical
reduction — a decoding failure of the right operand is a vm-error no
matter what the left operand is — and when both operands decode to
numbers the result is the integer 0 or 1. -/
theorem c7_no_short_circuit :
    ∀ (env : Env) (op l r : String), (op = "&&" ∨ op = "||") →
    (decodeOperand env r = none → binOpResult env op l r = none) ∧
    (∀ a b fa fb, decodeOperand env l = some a → decodeOperand env r = some b →
      toNumF a = some fa → toNumF b = some fb →
      binOpResult env op l r = some (.intV 0) ∨
      binOpResult env op l r = some (.intV 1)) := by
  intro env op l r hop
  constructor
  · intro hr
    unfold binOpResult
    cases hdl : decodeOperand env l with
    | none => rfl
    | some a => rw [hr]
  · intro a b fa fb ha hb hfa hfb
    have hred : binOpResult env op l r = binCompute op a b := by
      unfold binOpResult
      rw [ha, hb]
    rw [hred]
    rcases hop with hop | hop <;> subst hop
    · unfold binCompute
      have hg : (("&&" == "+") : Bool) = false := rfl
      rw [hg]
      simp only [Bool.false_and, if_false]
      rw [hfa, hfb]
      cases hc : (!(fIsZero fa) && !(fIsZero fb))
      · left; simp [hc]
      · right; simp [hc]
    · unfold binCompute
      have hg : (("||" == "+") : Bool) = false := rfl
      rw [hg]
      simp only [Bool.false_and, if_false]
      rw [hfa, hfb]
      cases hc : (!(fIsZero fa) || !(fIsZero fb))
      · left; simp [hc]
      · right; simp [hc]

/-- C7 witness: `1 || zzz` — the left operand alone would decide the
result, yet the undecodable right operand makes the whole operation a
vm-error. -/
theorem c7_witness :
    decodeOperand [] "1" = some (.intV 1) ∧
    decodeOperand [] "zzz" = none ∧
    binOpResult [] "||" "1" "zzz" = none :=
  ⟨rfl, rfl, (c7_no_short_circuit [] "||" "1" "zzz" (Or.inr rfl)).1 rfl⟩

/-- C8: a recorded constant binding survives a `Read`, a `Call`, and an
`Assign` from a non-literal source unchanged (nothing ever removes it),
and any later `BinaryOp`/`UnaryOp` whose operand is the recorded name is
emitted with the literal substituted for the name (either inside a fold
or in the rebuilt operation). -/
theorem c8_consts_never_invalidated :
    ∀ (m : CMap) (x v : String), getA m x = some v →
    (∀ d, ∃ m2 i2, cpStep m (.readI d) = some (m2, i2) ∧ getA m2 x = some v) ∧
    (∀ d c n, ∃ m2 i2, cpStep m (.call d c n) = some (m2, i2) ∧
      getA m2 x = some v) ∧
    (∀ d s, isConstant s = false →
      ∃ m2 i2, cpStep m (.assign d s) = some (m2, i2) ∧ getA m2 x = some v) ∧
    (∀ d op r m2 i2, cpStep m (.binOp d op x r) = some (m2, i2) →
      (∃ f, foldBinary op v ((getA m r).getD r) = some f ∧ i2 = .assign d f) ∨
      i2 = .binOp d op v ((getA m r).getD r)) ∧
    (∀ d op l m2 i2, cpStep m (.binOp d op l x) = some (m2, i2) →
      (∃ f, foldBinary op ((getA m l).getD l) v = some f ∧ i2 = .assign d f) ∨
      i2 = .binOp d op ((getA m l).getD l) v) ∧
    (∀ d op m2 i2, cpStep m (.unOp d op x) = some (m2, i2) →
      (∃ f, foldUnary op v = some f ∧ i2 = .assign d f) ∨ i2 = .unOp d op v) := by
  intro m x v h
  refine ⟨?_, ?_, ?_, ?_, ?_, ?_⟩
  · intro d
    exact ⟨m, .readI d, rfl, h⟩
  · intro d c n
    exact ⟨m, .call d c n, rfl, h⟩
  · intro d s hs
    refine ⟨m, .assign d s, ?_, h⟩
    simp only [cpStep, hs]
    rfl
  · intro d op r m2 i2 hstep
    simp only [cpStep, h, Option.getD_some] at hstep
    cases hc : (isConstant v && isConstant ((getA m r).getD r)) <;> rw [hc] at hstep
    · right
      exact (congrArg Prod.snd (Option.some.inj hstep)).symm
    · cases hf : foldBinary op v ((getA m r).getD r) <;> rw [hf] at hstep
      · exact absurd hstep (by simp)
      · left
        exact ⟨_, rfl, (congrArg Prod.snd (Option.some.inj hstep)).symm⟩
  · intro d op l m2 i2 hstep
    simp only [cpStep, h, Option.getD_some] at hstep
    cases hc : (isConstant ((getA m l).getD l) && isConstant v) <;> rw [hc] at hstep
    · right
      exact (congrArg Prod.snd (Option.some.inj hstep)).symm
    · cases hf : foldBinary op ((getA m l).getD l) v <;> rw [hf] at hstep
      · exact absurd hstep (by simp)
      · left
        exact ⟨_, rfl, (congrArg Prod.snd (Option.some.inj hstep)).symm⟩
  · intro d op m2 i2 hstep
    simp only [cpStep, h, Option.getD_some] at hstep
    cases hc : isConstant v <;> rw [hc] at hstep
    · right
      exact (congrArg Prod.snd (Option.some.inj hstep)).symm
    · cases hf : foldUnary op v <;> rw [hf] at hstep
      · exact absurd hstep (by simp)
      · left
        exact ⟨_, rfl, (congrArg Prod.snd (Option.some.inj hstep)).symm⟩

/-- C8 witness: with `x` recorded as `5`, a `read y` leaves the binding
in place. -/
theorem c8_witness :
    ∃ m2 i2, cpStep [("x", "5")] (.readI "y") = some (m2, i2) ∧
      getA m2 "x" = some "5" :=
  (c8_consts_never_invalidated [("x", "5")] "x" "5" rfl).1 "y"

/-- C9: a `FuncLabel` (like a `Label`) is skipped — the step continues at
`ip + 1` with everything else unchanged, so control falls through a
function boundary into the next function — and once `ip` reaches the end
of the instruction list the run halts with return value `None`. -/
theorem c9_funclabel_fallthrough :
    ∀ (s : VmState),
    (∀ n, s.instrs.get? s.ip = some (.funcLabel n) →
      vmStep s = .cont { s with ip := s.ip + 1 }) ∧
    (∀ n, s.instrs.get? s.ip = some (.label n) →
      vmStep s = .cont { s with ip := s.ip + 1 }) ∧
    (∀ fuel, s.instrs.length ≤ s.ip → vmRun (fuel + 1) s = .done none) := by
  intro s
  refine ⟨?_, ?_, ?_⟩
  · intro n h
    unfold vmStep
    rw [h]
  · intro n h
    unfold vmStep
    rw [h]
  · intro fuel h
    unfold vmRun
    rw [if_neg (Nat.not_lt.mpr h)]

/-- A concrete mid-run state sitting on the `FuncLabel g` of a second
function. -/
def c9State : VmState :=
  { instrs := [.funcLabel "main", .assign "x" "1", .funcLabel "g", .assign "y" "2"]
    labels := []
    funcLabels := [("main", 0), ("g", 2)]
    funcParams := []
    frames := []
    currentFunc := some "main"
    env := [("x", Value.intV 1)]
    ip := 2
    argStack := []
    inputs := []
    output := [] }

/-- C9 witness: the state at `FuncLabel g` steps to `ip = 3`, and the
state past the end of the list halts with `None`. -/
theorem c9_witness :
    vmStep c9State = .cont { c9State with ip := 3 } ∧
    vmRun 1 { c9State with ip := 4 } = .done none :=
  ⟨(c9_funclabel_fallthrough c9State).1 "g" rfl,
   (c9_funclabel_fallthrough { c9State with ip := 4 }).2.2 0 (by decide)⟩

/-! ### Destinations of generated calls (claim C10) -/

/-- Every call instruction in the list carries a destination, and that
destination is a generator temporary. -/
def CallOk (l : List Instr) : Prop :=
  ∀ dst c n, Instr.call dst c n ∈ l → ∃ k, dst = some (tempName k)

theorem callOk_append {l1 l2 : List Instr} (h1 : CallOk l1) (h2 : CallOk l2) :
    CallOk (l1 ++ l2) := by
  intro d c n hm
  rcases List.mem_append.mp hm with hm | hm
  · exact h1 d c n hm
  · exact h2 d c n hm

/-- Emitting an instruction that is not a destination-less call preserves
the invariant. -/
theorem callOk_emit {s : GenSt} {i : Instr}
    (hi : ∀ dst c n, i = .call dst c n → ∃ k, dst = some (tempName k))
    (h : CallOk s.instrs) : CallOk (emit s i).instrs := by
  apply callOk_append h
  intro d c n hm
  rw [List.mem_singleton] at hm
  exact hi d c n hm.symm

mutual

theorem callOk_genExpr : (e : ExprA) → ∀ s : GenSt,
    CallOk s.instrs → CallOk (genExpr s e).2.instrs
| .lit v => fun s h =>
  callOk_emit (fun _ _ _ hx => Instr.noConfusion hx) h
| .varE _ => fun _ h => h
| .group e => fun s h => callOk_genExpr e s h
| .unary op operand => fun s h => by
  apply callOk_emit (fun _ _ _ hx => Instr.noConfusion hx)
  exact callOk_genExpr operand s h
| .binary left op right => fun s h => by
  apply callOk_emit (fun _ _ _ hx => Instr.noConfusion hx)
  apply callOk_genExpr right
  exact callOk_genExpr left s h
| .assignE name value => fun s h => by
  apply callOk_emit (fun _ _ _ hx => Instr.noConfusion hx)
  exact callOk_genExpr value s h
| .callE callee args => fun s h => by
  apply callOk_emit ?_ (callOk_genCallArgs args s h)
  intro d c n hx
  injection hx with hd _ _
  exact ⟨(genCallArgs s args).2.tempCount, hd.symm⟩

theorem callOk_genCallArgs : (args : ExprListA) → ∀ s : GenSt,
    CallOk s.instrs → CallOk (genCallArgs s args).2.instrs
| .nil => fun _ h => h
| .cons e rest => fun s h => by
  apply callOk_genCallArgs rest
  apply callOk_emit (fun _ _ _ hx => Instr.noConfusion hx)
  exact callOk_genExpr e s h

end

mutual

theorem callOk_genStmt : (st : StmtA) → ∀ s : GenSt,
    CallOk s.instrs → CallOk (genStmt s st).instrs
| .blockS stmts => fun s h => callOk_genStmtList stmts s h
| .varDecl _ name initializer => fun s h => by
  cases initializer with
  | noneE => exact h
  | someE e =>
    apply callOk_emit (fun _ _ _ hx => Instr.noConfusion hx)
    exact callOk_genExpr e s h
| .exprS e => fun s h => callOk_genExpr e s h
| .ifS condition thenBranch elseBranch => fun s h => by
  cases elseBranch with
  | noneS =>
    apply callOk_emit (fun _ _ _ hx => Instr.noConfusion hx)
    apply callOk_emit (fun _ _ _ hx => Instr.noConfusion hx)
    apply callOk_emit (fun _ _ _ hx => Instr.noConfusion hx)
    apply callOk_genStmt thenBranch
    apply callOk_emit (fun _ _ _ hx => Instr.noConfusion hx)
    apply callOk_emit (fun _ _ _ hx => Instr.noConfusion hx)
    apply callOk_emit (fun _ _ _ hx => Instr.noConfusion hx)
    exact callOk_genExpr condition s h
  | someS b =>
    apply callOk_emit (fun _ _ _ hx => Instr.noConfusion hx)
    apply callOk_genStmt b
    apply callOk_emit (fun _ _ _ hx => Instr.noConfusion hx)
    apply callOk_emit (fun _ _ _ hx => Instr.noConfusion hx)
    apply callOk_genStmt thenBranch
    apply callOk_emit (fun _ _ _ hx => Instr.noConfusion hx)
    apply callOk_emit (fun _ _ _ hx => Instr.noConfusion hx)
    apply callOk_emit (fun _ _ _ hx => Instr.noConfusion hx)
    exact callOk_genExpr condition s h
| .whileS condition body => fun s h => by
  apply callOk_emit (fun _ _ _ hx => Instr.noConfusion hx)
  apply callOk_emit (fun _ _ _ hx => Instr.noConfusion hx)
  apply callOk_genStmt body
  apply callOk_emit (fun _ _ _ hx => Instr.noConfusion hx)
  apply callOk_emit (fun _ _ _ hx => Instr.noConfusion hx)
  apply callOk_emit (fun _ _ _ hx => Instr.noConfusion hx)
  apply callOk_genExpr condition
  apply callOk_emit (fun _ _ _ hx => Instr.noConfusion hx)
  exact h
| .doWhileS body condition => fun s h => by
  apply callOk_emit (fun _ _ _ hx => Instr.noConfusion hx)
  apply callOk_emit (fun _ _ _ hx => Instr.noConfusion hx)
  apply callOk_genExpr condition
  apply callOk_genStmt body
  apply callOk_emit (fun _ _ _ hx => Instr.noConfusion hx)
  exact h
| .forS init condition update body => fun s h => by
  cases init with
  | noneS =>
    cases update with
    | noneE =>
      cases condition with
      | someE c =>
        apply callOk_emit (fun _ _ _ hx => Instr.noConfusion hx)
        apply callOk_emit (fun _ _ _ hx => Instr.noConfusion hx)
        apply callOk_genStmt body
        apply callOk_emit (fun _ _ _ hx => Instr.noConfusion hx)
        apply callOk_emit (fun _ _ _ hx => Instr.noConfusion hx)
        apply callOk_emit (fun _ _ _ hx => Instr.noConfusion hx)
        apply callOk_genExpr c
        apply callOk_emit (fun _ _ _ hx => Instr.noConfusion hx)
        exact h
      | noneE =>
        apply callOk_emit (fun _ _ _ hx => Instr.noConfusion hx)
        apply callOk_emit (fun _ _ _ hx => Instr.noConfusion hx)
        apply callOk_genStmt body
        apply callOk_emit (fun _ _ _ hx => Instr.noConfusion hx)
        apply callOk_emit (fun _ _ _ hx => Instr.noConfusion hx)
        apply callOk_emit (fun _ _ _ hx => Instr.noConfusion hx)
        exact h
    | someE u =>
      cases condition with
      | someE c =>
        apply callOk_emit (fun _ _ _ hx => Instr.noConfusion hx)
        apply callOk_emit (fun _ _ _ hx => Instr.noConfusion hx)
        apply callOk_genExpr u
        apply callOk_genStmt body
        apply callOk_emit (fun _ _ _ hx => Instr.noConfusion hx)
        apply callOk_emit (fun _ _ _ hx => Instr.noConfusion hx)
        apply callOk_emit (fun _ _ _ hx => Instr.noConfusion hx)
        apply callOk_genExpr c
        apply callOk_emit (fun _ _ _ hx => Instr.noConfusion hx)
        exact h
      | noneE =>
        apply callOk_emit (fun _ _ _ hx => Instr.noConfusion hx)
        apply callOk_emit (fun _ _ _ hx => Instr.noConfusion hx)
        apply callOk_genExpr u
        apply callOk_genStmt body
        apply callOk_emit (fun _ _ _ hx => Instr.noConfusion hx)
        apply callOk_emit (fun _ _ _ hx => Instr.noConfusion hx)
        apply callOk_emit (fun _ _ _ hx => Instr.noConfusion hx)
        exact h
  | someS st =>
    cases update with
    | noneE =>
      cases condition with
      | someE c =>
        apply callOk_emit (fun _ _ _ hx => Instr.noConfusion hx)
        apply callOk_emit (fun _ _ _ hx => Instr.noConfusion hx)
        apply callOk_genStmt body
        apply callOk_emit (fun _ _ _ hx => Instr.noConfusion hx)
        apply callOk_emit (fun _ _ _ hx => Instr.noConfusion hx)
        apply callOk_emit (fun _ _ _ hx => Instr.noConfusion hx)
        apply callOk_genExpr c
        apply callOk_emit (fun _ _ _ hx => Instr.noConfusion hx)
        exact callOk_genStmt st s h
      | noneE =>
        apply callOk_emit (fun _ _ _ hx => Instr.noConfusion hx)
        apply callOk_emit (fun _ _ _ hx => Instr.noConfusion hx)
        apply callOk_genStmt body
        apply callOk_emit (fun _ _ _ hx => Instr.noConfusion hx)
        apply callOk_emit (fun _ _ _ hx => Instr.noConfusion hx)
        apply callOk_emit (fun _ _ _ hx => Instr.noConfusion hx)
        exact callOk_genStmt st s h
    | someE u =>
      cases condition with
      | someE c =>
        apply callOk_emit (fun _ _ _ hx => Instr.noConfusion hx)
        apply callOk_emit (fun _ _ _ hx => Instr.noConfusion hx)
        apply callOk_genExpr u
        apply callOk_genStmt body
        apply callOk_emit (fun _ _ _ hx => Instr.noConfusion hx)
        apply callOk_emit (fun _ _ _ hx => Instr.noConfusion hx)
        apply callOk_emit (fun _ _ _ hx => Instr.noConfusion hx)
        apply callOk_genExpr c
        apply callOk_emit (fun _ _ _ hx => Instr.noConfusion hx)
        exact callOk_genStmt st s h
      | noneE =>
        apply callOk_emit (fun _ _ _ hx => Instr.noConfusion hx)
        apply callOk_emit (fun _ _ _ hx => Instr.noConfusion hx)
        apply callOk_genExpr u
        apply callOk_genStmt body
        apply callOk_emit (fun _ _ _ hx => Instr.noConfusion hx)
        apply callOk_emit (fun _ _ _ hx => Instr.noConfusion hx)
        apply callOk_emit (fun _ _ _ hx => Instr.noConfusion hx)
        exact callOk_genStmt st s h
| .returnS value => fun s h => by
  cases value with
  | noneE => exact callOk_emit (fun _ _ _ hx => Instr.noConfusion hx) h
  | someE e =>
    apply callOk_emit (fun _ _ _ hx => Instr.noConfusion hx)
    exact callOk_genExpr e s h
| .printS e => fun s h => by
  apply callOk_emit (fun _ _ _ hx => Instr.noConfusion hx)
  exact callOk_genExpr e s h
| .readS _ => fun s h =>
  callOk_emit (fun _ _ _ hx => Instr.noConfusion hx) h

theorem callOk_genStmtList : (sl : StmtListA) → ∀ s : GenSt,
    CallOk s.instrs → CallOk (genStmtList s sl).instrs
| .nil => fun _ h => h
| .cons st rest => fun s h =>
  callOk_genStmtList rest (genStmt s st) (callOk_genStmt st s h)

end

theorem callOk_genFunction (f : FunctionDeclA) (s : GenSt)
    (h : CallOk s.instrs) : CallOk (genFunction s f).instrs :=
  callOk_genStmt f.body _ (callOk_emit (fun _ _ _ hx => Instr.noConfusion hx) h)

theorem callOk_foldl : (fs : List FunctionDeclA) → ∀ s : GenSt,
    CallOk s.instrs → CallOk (fs.foldl genFunction s).instrs
| [] => fun _ h => h
| f :: rest => fun s h => callOk_foldl rest _ (callOk_genFunction f s h)

/-- C10: every call instruction the IR generator emits — even for a call
whose value is discarded by an expression statement — carries a
destination, and that destination is a freshly allocated temporary
`t` followed by the counter value; the destination-less call form is
never produced. -/
theorem c10_call_always_has_dest :
    ∀ (p : ProgramA) dst c n, Instr.call dst c n ∈ generate p →
      ∃ k, dst = some (tempName k) :=
  fun p => callOk_foldl p _ (fun _ _ _ hm => absurd hm (List.not_mem_nil _))

/-- C10 witness: the discarded call `f();` still gets the destination
`t0`. -/
theorem c10_witness :
    Instr.call (some "t0") "f" 0 ∈ generate c10Program ∧
    ∃ k, (some "t0" : Option String) = some (tempName k) :=
  ⟨by decide, c10_call_always_has_dest c10Program (some "t0") "f" 0 (by decide)⟩

end Dragon
